import Mathlib

/-!
Shallow embedding of the PDF_Viewer repository's Document Edit Engine
(src/app.py `PDFViewWidget` / `EditDialog` / `PDFViewerApp`, and the
package variant src/app/widgets/pdf_view_widget.py) for checking the
natural-language specification.

A document is a list of pages; a page carries word-level text runs
(as returned by `Page.get_text("words")`), pending and applied
redaction rectangles, text insertions and highlight annotations.
PyMuPDF (fitz) primitives used by the source are modelled as pure
functions on this state; incremental persistence (`Document.saveIncr`)
is a counter on the document.  Coordinates are exact rationals.
-/

namespace PdfModel

/-- Axis-aligned rectangle in document coordinates (a `fitz.Rect`). -/
structure Rect where
  x0 : ℚ
  y0 : ℚ
  x1 : ℚ
  y1 : ℚ
deriving DecidableEq

/-- One entry of `Page.get_text("words")`: bounding box, word text and
the (block, line, word) position indices. -/
structure Word where
  x0 : ℚ
  y0 : ℚ
  x1 : ℚ
  y1 : ℚ
  text : String
  blockNo : ℕ
  lineNo : ℕ
  wordNo : ℕ
deriving DecidableEq

/-- Bounding rectangle of a word entry (`fitz.Rect(word[0..3])`). -/
def wordRect (w : Word) : Rect := ⟨w.x0, w.y0, w.x1, w.y1⟩

/-- A text run inserted by `Page.insert_text(pos, text, fontsize, fontname, color)`. -/
structure TextIns where
  pos : ℚ × ℚ
  text : String
  fontsize : ℚ
  fontname : String
  color : ℚ × ℚ × ℚ
deriving DecidableEq

/-- One document page: media box size, word runs, redaction state,
insertions and highlight annotations. -/
structure Page where
  width : ℚ
  height : ℚ
  words : List Word
  pending : List Rect
  applied : List Rect
  insertions : List TextIns
  highlights : List Rect
deriving DecidableEq

/-- The parsed working-copy document: pages plus a count of incremental
persistence calls (`Document.saveIncr`). -/
structure Doc where
  pages : List Page
  persistCount : ℕ
deriving DecidableEq

/-- Replace page `i` of the document (the effect of mutating `doc[i]`). -/
def Doc.setPage (doc : Doc) (i : ℕ) (pg : Page) : Doc :=
  { doc with pages := doc.pages.set i pg }

/-- Models `Document.saveIncr()`: append the latest changes to the
working-copy file; counted, so an unchanged counter means no
persistence call happened. -/
def Doc.saveIncr (doc : Doc) : Doc :=
  { doc with persistCount := doc.persistCount + 1 }

/-- Open-overlap test between two rectangles, the criterion PyMuPDF
redaction uses to decide which text a redaction rectangle removes. -/
def rectIntersects (a b : Rect) : Bool :=
  decide (a.x0 < b.x1) && decide (b.x0 < a.x1) &&
  decide (a.y0 < b.y1) && decide (b.y0 < a.y1)

/-- Models `Page.add_redact_annot(rect)`: queue a redaction rectangle. -/
def addRedactAnnot (pg : Page) (r : Rect) : Page :=
  { pg with pending := pg.pending ++ [r] }

/-- Models `Page.apply_redactions()`: destructively remove every word
whose box overlaps a queued rectangle, and move the queued rectangles
to the applied log. -/
def applyRedactions (pg : Page) : Page :=
  { pg with
    words := pg.words.filter
      (fun w => !(pg.pending.any (fun r => rectIntersects r (wordRect w)))),
    pending := [],
    applied := pg.applied ++ pg.pending }

/-- Models `Page.insert_text(pos, text, fontsize=sz, fontname=fn, color=c)`. -/
def insertText (pg : Page) (pos : ℚ × ℚ) (t : String) (sz : ℚ)
    (fn : String) (c : ℚ × ℚ × ℚ) : Page :=
  { pg with insertions := pg.insertions ++ [⟨pos, t, sz, fn, c⟩] }

/-- Models `Page.add_highlight_annot(rect)` followed by `annot.update()`. -/
def addHighlightAnnot (pg : Page) (r : Rect) : Page :=
  { pg with highlights := pg.highlights ++ [r] }

/-- Whitespace test used by `strip` (space, tab, newline, return — the
characters Python's `str.strip()` removes in this code's inputs). -/
def isSpaceChar (c : Char) : Bool :=
  c == ' ' || c == '\t' || c == '\n' || c == '\r'

/-- Models Python's `str.strip()`: drop leading and trailing whitespace. -/
def strip (s : String) : String :=
  ⟨((s.data.dropWhile isSpaceChar).reverse.dropWhile isSpaceChar).reverse⟩

/-- Does the character list `hay` start with `n`? -/
def leadsWith : List Char → List Char → Bool
  | [], _ => true
  | _ :: _, [] => false
  | a :: as, b :: bs => a == b && leadsWith as bs

/-- Does `n` occur as a contiguous run inside the character list? -/
def occursIn (n : List Char) : List Char → Bool
  | [] => n.isEmpty
  | c :: cs => leadsWith n (c :: cs) || occursIn n cs

/-- Substring occurrence on strings. -/
def strContains (hay needle : String) : Bool :=
  occursIn needle.data hay.data

/-- Models `Page.search_for(needle)` at word granularity: the bounding
rectangles, in reading order, of the words containing `needle` as a
substring.  An empty needle yields no hits (the library requires a
non-empty needle and returns no quads for an empty one). -/
def searchFor (pg : Page) (needle : String) : List Rect :=
  if needle = "" then []
  else (pg.words.filter (fun w => strContains w.text needle)).map wordRect

/-- The fixed GUI-font-name to built-in-PDF-font table
(`PDFViewWidget.font_map`). -/
def font_map : List (String × String) :=
  [("Arial", "helv"), ("Times New Roman", "Times-Roman"),
   ("Courier", "Courier"), ("Verdana", "helv")]

/-- Models `self.font_map.get(name, "helv")`. -/
def fontLookup (name : String) : String :=
  (font_map.lookup name).getD "helv"

/-- The user's current text style (`PDFViewWidget.text_style`):
friendly font family name, size, and RGB color in `[0,1]`. -/
structure TextStyle where
  font : String
  size : ℚ
  color : ℚ × ℚ × ℚ
deriving DecidableEq

/-- The default style installed by `PDFViewWidget.__init__`. -/
def defaultStyle : TextStyle := ⟨"Arial", 12, (0, 0, 0)⟩

/-- The per-match body of `PDFViewWidget.edit_text`: redact the matched
rectangle, apply the redaction immediately, then insert the new text at
the region origin offset down by 0.8 of the region height, in the
current style with the mapped built-in font. -/
def editStep (style : TextStyle) (newText : String) (pg : Page) (r : Rect) : Page :=
  let pg1 := applyRedactions (addRedactAnnot pg r)
  insertText pg1 (r.x0, r.y0 + (r.y1 - r.y0) * (4 / 5)) newText
    style.size (fontLookup style.font) style.color

/-- Models `PDFViewWidget.edit_text` (src/app.py): substring search for
`oldText`; with no hits return `False` and change nothing; otherwise
process every match with `editStep`, persist incrementally once, and
return `True`.  An out-of-range page raises, is caught, and yields
`False` with no change. -/
def edit_text (doc : Doc) (style : TextStyle) (pageNumber : ℕ)
    (oldText newText : String) : Bool × Doc :=
  match doc.pages[pageNumber]? with
  | none => (false, doc)
  | some page =>
    let hits := searchFor page oldText
    if hits.isEmpty then (false, doc)
    else
      let page' := hits.foldl (editStep style newText) page
      (true, (doc.setPage pageNumber page').saveIncr)

/-- Models `PDFViewWidget.add_highlight` (src/app.py): highlight every
substring match (possibly none), persist incrementally, return `True`. -/
def add_highlight (doc : Doc) (pageNumber : ℕ) (text : String) : Bool × Doc :=
  match doc.pages[pageNumber]? with
  | none => (false, doc)
  | some page =>
    let hits := searchFor page text
    let page' := hits.foldl addHighlightAnnot page
    (true, (doc.setPage pageNumber page').saveIncr)

/-- Widen a matched box by one document unit on each side in x
(`rect.x0 -= 1; rect.x1 += 1` in `delete_text`). -/
def padRect (r : Rect) : Rect := { r with x0 := r.x0 - 1, x1 := r.x1 + 1 }

/-- Models `PDFViewWidget.delete_text` (src/app.py): collect the boxes
of words whose stripped text equals the stripped query exactly; with no
hits return `False` and change nothing; otherwise queue every padded
box, apply the redactions once, persist incrementally, return `True`. -/
def delete_text (doc : Doc) (pageNumber : ℕ) (text : String) : Bool × Doc :=
  match doc.pages[pageNumber]? with
  | none => (false, doc)
  | some page =>
    let hits := (page.words.filter
      (fun w => strip w.text == strip text)).map wordRect
    if hits.isEmpty then (false, doc)
    else
      let page1 := hits.foldl (fun pg r => addRedactAnnot pg (padRect r)) page
      let page2 := applyRedactions page1
      (true, (doc.setPage pageNumber page2).saveIncr)

/-- Models `EditDialog.replace_text` (src/app.py): the dialog calls
`edit_text` only when both the old and the new text strip to something
non-empty; otherwise it does nothing at all (`none` = not attempted). -/
def replaceTextDialog (doc : Doc) (style : TextStyle) (pageNumber : ℕ)
    (oldTxt newTxt : String) : Option Bool × Doc :=
  if strip oldTxt = "" ∨ strip newTxt = "" then (none, doc)
  else
    let r := edit_text doc style pageNumber oldTxt newTxt
    (some r.1, r.2)

/-- Models `PDFViewWidget.remove_page` (src/app.py): pop the page
widget (raising on a bad index, caught with no change), delete the page
from the document, persist incrementally. -/
def remove_page (doc : Doc) (index : ℕ) : Doc :=
  if index < doc.pages.length then
    { pages := doc.pages.eraseIdx index, persistCount := doc.persistCount + 1 }
  else doc

/-- The pixel buffer produced by `show_page`: page rendered through
`fitz.Matrix(zoom, zoom)`, so its size is the page size scaled by the
zoom and its contents are determined by the page contents. -/
structure Pixmap where
  width : ℚ
  height : ℚ
  content : Page
deriving DecidableEq

/-- Models `show_page` / `Page.get_pixmap(matrix=fitz.Matrix(zoom, zoom))`. -/
def render (doc : Doc) (index : ℕ) (zoom : ℚ) : Option Pixmap :=
  (doc.pages[index]?).map (fun pg => ⟨pg.width * zoom, pg.height * zoom, pg⟩)

/-- Error kinds for the coordinate mapper.  The source raises a bare
`ZeroDivisionError`; `invalidGeometry` is the typed rejection the
specification asks for and the source never produces. -/
inductive GeomError
  | zeroDivision
  | invalidGeometry
deriving DecidableEq

/-- Document-to-device conversion: rendering goes through
`fitz.Matrix(zoom, zoom)`, so a document point maps to `point * zoom`. -/
def toDeviceSpace (p : ℚ × ℚ) (zoom : ℚ) : ℚ × ℚ :=
  (p.1 * zoom, p.2 * zoom)

/-- Device-to-document conversion as written in
`PDFViewWidget.handle_edit_click` (src/app.py): per-axis scale factor
`pageDimension / renderedDimension` applied to the click position.  A
zero rendered dimension makes the Python division raise
`ZeroDivisionError` (uncaught there), embedded as the error case. -/
def toDocumentSpace (pos : ℚ × ℚ) (renderedW renderedH pageW pageH : ℚ) :
    Except GeomError (ℚ × ℚ) :=
  if renderedW = 0 ∨ renderedH = 0 then Except.error GeomError.zeroDivision
  else Except.ok (pos.1 * (pageW / renderedW), pos.2 * (pageH / renderedH))

/-- The floating `QLineEdit` used for click-to-edit
(`PDFViewWidget.current_text_edit`): visibility, typed text, the word
that was hit (if any), and the stored click position in document space. -/
structure EditBox where
  visible : Bool
  text : String
  originalWord : Option Word
  pdfPosition : ℚ × ℚ
deriving DecidableEq

/-- The widget state that `finish_text_edit` reads and writes. -/
structure ViewerState where
  doc : Doc
  style : TextStyle
  editBox : EditBox
  currentPageIndex : Option ℕ
deriving DecidableEq

/-- Hide the floating edit box (`self.current_text_edit.hide()`). -/
def hideBox (s : ViewerState) : ViewerState :=
  { s with editBox := { s.editBox with visible := false } }

/-- Models `PDFViewWidget.delete_current_text` (src/app.py): with a
stored original word and a valid current page, redact the word's box
(no padding), apply, persist incrementally and hide the box; otherwise
the raised error is caught and nothing changes. -/
def delete_current_text (s : ViewerState) : ViewerState :=
  match s.editBox.originalWord with
  | none => s
  | some w =>
    match s.currentPageIndex with
    | none => s
    | some i =>
      match s.doc.pages[i]? with
      | none => s
      | some pg =>
        let pg' := applyRedactions (addRedactAnnot pg (wordRect w))
        hideBox { s with doc := (s.doc.setPage i pg').saveIncr }

/-- The commit tail of `finish_text_edit`: redact the original word if
one was hit, insert the new text at the stored click position in the
current style, persist incrementally, hide the box.  A caught error
(bad page index) changes nothing but still hides the box (`finally`). -/
def commitInsert (s : ViewerState) (newText : String) : ViewerState :=
  match s.currentPageIndex with
  | none => hideBox s
  | some i =>
    match s.doc.pages[i]? with
    | none => hideBox s
    | some pg =>
      let pg1 := match s.editBox.originalWord with
        | some w => applyRedactions (addRedactAnnot pg (wordRect w))
        | none => pg
      let pg2 := insertText pg1 s.editBox.pdfPosition newText
        s.style.size (fontLookup s.style.font) s.style.color
      hideBox { s with doc := (s.doc.setPage i pg2).saveIncr }

/-- Models `PDFViewWidget.finish_text_edit` (src/app.py): do nothing if
the box is hidden or no page is current; take the typed text stripped;
if a word was hit, its text is non-empty and equals the typed text,
just hide the box (no-op fast path); if the typed text is empty, delete
the hit word (if any) and hide; otherwise commit the replacement or the
brand-new insertion. -/
def finish_text_edit (s : ViewerState) : ViewerState :=
  if s.editBox.visible = false ∨ s.currentPageIndex = none then s
  else
    let newText := strip s.editBox.text
    match s.editBox.originalWord with
    | some w =>
      if w.text ≠ "" ∧ newText = w.text then hideBox s
      else if newText = "" then hideBox (delete_current_text s)
      else commitInsert s newText
    | none =>
      if newText = "" then hideBox s
      else commitInsert s newText

/-- The local filesystem, abstracted to the byte contents (coded as a
natural number) stored at each path. -/
def FS : Type := String → ℕ

/-- Write contents `v` at path `p`. -/
def setFile (fs : FS) (p : String) (v : ℕ) : FS :=
  fun q => if q = p then v else fs q

/-- A document session's two paths: the read-only source the user
opened and the exclusively-owned temporary working copy. -/
structure Session where
  originalPath : String
  workingPath : String
deriving DecidableEq

/-- Models the open path of `PDFViewWidget.__init__` (src/app.py):
`shutil.copy2(pdf_file_path, self.working_pdf_path)` duplicates the
source into the fresh working path, which is then the file every edit
is parsed from and written to. -/
def openSession (fs : FS) (src work : String) : FS × Session :=
  (setFile fs work (fs src), ⟨src, work⟩)

/-- A committed content mutation: `Document.saveIncr()` appends to the
working-copy file, so the bytes at the working path change (modelled as
a bump of the content code) and no other path is written. -/
def saveIncrFS (fs : FS) (s : Session) : FS :=
  setFile fs s.workingPath (fs s.workingPath + 1)

/-- Models `PDFViewWidget.save_as` (src/app.py):
`shutil.copy2(self.working_pdf_path, new_path)`, then `True`. -/
def save_as (fs : FS) (s : Session) (dest : String) : FS × Bool :=
  (setFile fs dest (fs s.workingPath), true)

/-- Models the PDF branch of `PDFViewerApp.save_file` (src/app.py):
the app-level Save command calls `current_widget.save_as(original_path)`. -/
def save_file (fs : FS) (s : Session) : FS × Bool :=
  save_as fs s s.originalPath

/-- One filesystem-visible session event: a committed content edit, or
a Save As to some destination path. -/
inductive SessionOp
  | mutate
  | saveAs (dest : String)
deriving DecidableEq

/-- Run one session event against the filesystem. -/
def runOp (fs : FS) (s : Session) : SessionOp → FS
  | SessionOp.mutate => saveIncrFS fs s
  | SessionOp.saveAs dest => (save_as fs s dest).1

/-- Run a whole session history against the filesystem. -/
def runOps (fs : FS) (s : Session) : List SessionOp → FS
  | [] => fs
  | op :: rest => runOps (runOp fs s op) s rest

/-- The insertion that `edit_text` produces for one matched region:
`newText` at the region origin, dropped by 0.8 of the region height,
in the current style with the mapped built-in font. -/
def replacementIns (style : TextStyle) (newText : String) (r : Rect) : TextIns :=
  ⟨(r.x0, r.y0 + (r.y1 - r.y0) * (4 / 5)), newText,
   style.size, fontLookup style.font, style.color⟩

/-- A one-page sample document holding the single word "Hello". -/
def helloWord : Word := ⟨72, 100, 120, 112, "Hello", 0, 0, 0⟩

/-- Sample page containing only `helloWord`. -/
def helloPage : Page := ⟨612, 792, [helloWord], [], [], [], []⟩

/-- Sample one-page document around `helloPage`. -/
def helloDoc : Doc := ⟨[helloPage], 0⟩

/-- The exact token "Cat" on the Cat/Category sample page. -/
def catWord : Word := ⟨50, 100, 70, 112, "Cat", 0, 0, 0⟩

/-- The word "Category", to the right of `catWord` with normal spacing. -/
def categoryWord : Word := ⟨100, 100, 160, 112, "Category", 0, 0, 1⟩

/-- Sample page containing both "Cat" and "Category". -/
def catPage : Page := ⟨612, 792, [catWord, categoryWord], [], [], [], []⟩

/-- Sample one-page document around `catPage`. -/
def catDoc : Doc := ⟨[catPage], 0⟩

/-- A three-page sample document with distinguishable pages. -/
def threePageDoc : Doc :=
  ⟨[⟨100, 200, [], [], [], [], []⟩,
    ⟨110, 210, [], [], [], [], []⟩,
    ⟨120, 220, [], [], [], [], []⟩], 0⟩

/-- Sample viewer state: the edit box is open over `helloWord` with the
word's own text typed back in. -/
def helloState : ViewerState :=
  ⟨helloDoc, defaultStyle, ⟨true, "Hello", some helloWord, (72, 110)⟩, some 0⟩

/-- Sample initial filesystem: 7 stands for the original bytes of the
source document at "doc.pdf"; every other path is empty. -/
def fs0 : FS := setFile (fun _ => 0) "doc.pdf" 7

/-- Writing back the element already stored at an index leaves the list
unchanged. -/
lemma set_self_of_getElem? {α : Type} :
    ∀ (l : List α) (i : ℕ) (a : α), l[i]? = some a → l.set i a = l
  | [], _, _, h => by simp at h
  | x :: xs, 0, a, h => by
      have hx : x = a := by simpa using h
      subst hx
      rfl
  | x :: xs, i + 1, a, h => by
      have hx : xs[i]? = some a := by simpa using h
      show x :: xs.set i a = x :: xs
      rw [set_self_of_getElem? xs i a hx]

/-- C6 — For every zoom `z > 0` and document point `p`, converting to
device space at zoom `z` and back with rendered dimensions `z` times
the page dimensions returns `p` exactly (the conversion scales each
axis by `pageDimension / renderedDimension`). -/
theorem coord_roundTrip (z pageW pageH : ℚ) (p : ℚ × ℚ)
    (hz : 0 < z) (hw : 0 < pageW) (hh : 0 < pageH) :
    toDocumentSpace (toDeviceSpace p z) (z * pageW) (z * pageH) pageW pageH
      = Except.ok p := by
  have hzw : z * pageW ≠ 0 := (mul_pos hz hw).ne'
  have hzh : z * pageH ≠ 0 := (mul_pos hz hh).ne'
  have hz' : z ≠ 0 := hz.ne'
  have hw' : pageW ≠ 0 := hw.ne'
  have hh' : pageH ≠ 0 := hh.ne'
  obtain ⟨a, b⟩ := p
  simp only [toDocumentSpace, toDeviceSpace]
  rw [if_neg (by push_neg; exact ⟨hzw, hzh⟩)]
  have e1 : a * z * (pageW / (z * pageW)) = a := by field_simp; ring
  have e2 : b * z * (pageH / (z * pageH)) = b := by field_simp; ring
  rw [e1, e2]

/-- Witness for C6 at zoom 2 on a 612 by 792 page. -/
theorem coord_roundTrip_witness :
    toDocumentSpace (toDeviceSpace (3, 4) 2) (2 * 612) (2 * 792) 612 792
      = Except.ok (3, 4) :=
  coord_roundTrip 2 612 792 (3, 4) (by norm_num) (by norm_num) (by norm_num)

/-- C7 — At a zero rendered width the source's conversion raises a bare
division-by-zero error (`scale_x = page_rect.width / label.width()`),
not the typed `InvalidGeometry` rejection the specification requires. -/
theorem zeroRendered_divisionFailure :
    toDocumentSpace (10, 10) 0 400 612 792
      = Except.error GeomError.zeroDivision := by
  simp [toDocumentSpace]

/-- C4 — Replace with zero substring matches on a valid page returns
`False` and leaves the working-copy document completely unchanged. -/
theorem replaceText_noMatch_noop (doc : Doc) (style : TextStyle) (pn : ℕ)
    (old new : String) (page : Page)
    (hp : doc.pages[pn]? = some page)
    (hm : searchFor page old = []) :
    edit_text doc style pn old new = (false, doc) := by
  simp [edit_text, hp, hm]

/-- Witness for C4: "Goodbye" does not occur on the sample page. -/
theorem replaceText_noMatch_noop_witness :
    edit_text helloDoc defaultStyle 0 "Goodbye" "Hi" = (false, helloDoc) :=
  replaceText_noMatch_noop helloDoc defaultStyle 0 "Goodbye" "Hi" helloPage
    rfl (by decide)

/-- C5 — The replace dialog rejects an empty old or new text without
touching the document (it never reaches `edit_text`), and an empty
query string yields no search results at all. -/
theorem replaceText_emptyArgs_rejected :
    (∀ (doc : Doc) (style : TextStyle) (pn : ℕ) (o n : String),
      o = "" ∨ n = "" →
      replaceTextDialog doc style pn o n = (none, doc)) ∧
    (∀ pg : Page, searchFor pg "" = []) := by
  constructor
  · intro doc style pn o n h
    have ho : strip o = "" ∨ strip n = "" := by
      rcases h with h | h
      · exact Or.inl (by rw [h]; decide)
      · exact Or.inr (by rw [h]; decide)
    simp [replaceTextDialog, ho]
  · intro pg
    simp [searchFor]

/-- Witness for C5: empty old text on the sample document. -/
theorem replaceText_emptyArgs_rejected_witness :
    replaceTextDialog helloDoc defaultStyle 0 "" "Hi" = (none, helloDoc) ∧
    searchFor helloPage "" = [] :=
  ⟨replaceText_emptyArgs_rejected.1 helloDoc defaultStyle 0 "" "Hi" (Or.inl rfl),
   replaceText_emptyArgs_rejected.2 helloPage⟩

/-- C10 — Highlighting a text with zero matches on a valid page still
returns `True` and still persists incrementally (the document's only
change is the persistence counter). -/
theorem highlight_noMatch_stillPersists (doc : Doc) (pn : ℕ)
    (text : String) (page : Page)
    (hp : doc.pages[pn]? = some page)
    (hm : searchFor page text = []) :
    add_highlight doc pn text
      = (true, { doc with persistCount := doc.persistCount + 1 }) := by
  simp [add_highlight, hp, hm, Doc.setPage, Doc.saveIncr,
    set_self_of_getElem? doc.pages pn page hp]

/-- Witness for C10: "zzz" does not occur on the sample page. -/
theorem highlight_noMatch_stillPersists_witness :
    add_highlight helloDoc 0 "zzz"
      = (true, { helloDoc with persistCount := helloDoc.persistCount + 1 }) :=
  highlight_noMatch_stillPersists helloDoc 0 "zzz" helloPage rfl (by decide)

/-- Folding `editStep` over the matched regions of a page with no
queued redactions applies every region's redaction and appends the
corresponding replacement insertions in order. -/
lemma foldl_editStep_spec (style : TextStyle) (newText : String) :
    ∀ (ms : List Rect) (pg : Page), pg.pending = [] →
      (ms.foldl (editStep style newText) pg).pending = [] ∧
      (ms.foldl (editStep style newText) pg).applied = pg.applied ++ ms ∧
      (ms.foldl (editStep style newText) pg).insertions
        = pg.insertions ++ ms.map (replacementIns style newText)
  | [], pg, h => by simp [h]
  | r :: rs, pg, h => by
      have hstep : (editStep style newText pg r).pending = [] := by
        simp [editStep, applyRedactions, addRedactAnnot, insertText]
      obtain ⟨h1, h2, h3⟩ := foldl_editStep_spec style newText rs
        (editStep style newText pg r) hstep
      refine ⟨by simpa using h1, ?_, ?_⟩
      · rw [List.foldl_cons, h2]
        simp [editStep, applyRedactions, addRedactAnnot, insertText, h]
      · rw [List.foldl_cons, h3]
        simp [editStep, applyRedactions, addRedactAnnot, insertText,
          replacementIns]

/-- C1 — With at least one substring match of a non-empty `oldText` on
a valid page, `edit_text` applies a redaction over every matched
region, inserts `newText` at each region's origin offset down by 0.8 of
the region height in the current style's size and color with the font
looked up from the family table, persists incrementally, and returns
success. -/
theorem replaceText_spec (doc : Doc) (style : TextStyle) (pn : ℕ)
    (old new : String) (page : Page)
    (hp : doc.pages[pn]? = some page)
    (hpend : page.pending = [])
    (hne : old ≠ "")
    (hm : searchFor page old ≠ []) :
    ∃ page',
      edit_text doc style pn old new
        = (true, { pages := doc.pages.set pn page',
                   persistCount := doc.persistCount + 1 }) ∧
      page'.applied = page.applied ++ searchFor page old ∧
      page'.insertions
        = page.insertions ++ (searchFor page old).map (replacementIns style new) := by
  obtain ⟨h1, h2, h3⟩ := foldl_editStep_spec style new (searchFor page old) page hpend
  refine ⟨(searchFor page old).foldl (editStep style new) page, ?_, h2, h3⟩
  simp [edit_text, hp, hm, Doc.setPage, Doc.saveIncr]

/-- Witness for C1: replacing the one occurrence of "Hello" by "Hi". -/
theorem replaceText_spec_witness :
    ∃ page',
      edit_text helloDoc defaultStyle 0 "Hello" "Hi"
        = (true, { pages := helloDoc.pages.set 0 page',
                   persistCount := helloDoc.persistCount + 1 }) ∧
      page'.applied = helloPage.applied ++ searchFor helloPage "Hello" ∧
      page'.insertions = helloPage.insertions
        ++ (searchFor helloPage "Hello").map (replacementIns defaultStyle "Hi") :=
  replaceText_spec helloDoc defaultStyle 0 "Hello" "Hi" helloPage rfl rfl
    (by decide) (by decide)

/-- Queueing the padded boxes of a match list only grows the pending
redaction queue; nothing else on the page changes. -/
lemma foldl_addRedact_pad :
    ∀ (ms : List Rect) (pg : Page),
      ms.foldl (fun p r => addRedactAnnot p (padRect r)) pg
        = { pg with pending := pg.pending ++ ms.map padRect }
  | [], pg => by simp
  | r :: rs, pg => by
      rw [List.foldl_cons, foldl_addRedact_pad rs]
      simp [addRedactAnnot]

/-- With no exactly matching word on a valid page, `delete_text`
returns `False` and changes nothing. -/
lemma deleteText_miss (doc : Doc) (pn : ℕ) (q : String) (page : Page)
    (hp : doc.pages[pn]? = some page)
    (hm : page.words.filter (fun w => strip w.text == strip q) = []) :
    delete_text doc pn q = (false, doc) := by
  simp [delete_text, hp, hm]

/-- With at least one exactly matching word, `delete_text` applies
redactions over precisely the x-padded boxes of the matching words,
persists incrementally and returns `True`. -/
lemma deleteText_hit (doc : Doc) (pn : ℕ) (q : String) (page : Page)
    (hp : doc.pages[pn]? = some page) (hpend : page.pending = [])
    (hm : page.words.filter (fun w => strip w.text == strip q) ≠ []) :
    ∃ page',
      delete_text doc pn q
        = (true, { pages := doc.pages.set pn page',
                   persistCount := doc.persistCount + 1 }) ∧
      page'.applied = page.applied
        ++ (page.words.filter (fun w => strip w.text == strip q)).map
            (fun w => padRect (wordRect w)) ∧
      page'.words = page.words.filter (fun w =>
        !(((page.words.filter (fun v => strip v.text == strip q)).map
            (fun v => padRect (wordRect v))).any
          (fun r => rectIntersects r (wordRect w)))) := by
  have hmm : (page.words.filter (fun w => strip w.text == strip q)).map wordRect ≠ [] := by
    simpa using hm
  refine ⟨applyRedactions (((page.words.filter
      (fun w => strip w.text == strip q)).map wordRect).foldl
      (fun p r => addRedactAnnot p (padRect r)) page), ?_, ?_, ?_⟩
  · simp [delete_text, hp, hmm, Doc.setPage, Doc.saveIncr]
  · rw [foldl_addRedact_pad]
    simp [applyRedactions, hpend, List.map_map, Function.comp_def]
  · rw [foldl_addRedact_pad]
    simp [applyRedactions, hpend, List.map_map, Function.comp_def]

/-- C2 — `delete_text` matches exactly the words whose stripped text
equals the stripped query: with no such word it returns `False` and
changes nothing; otherwise it applies redactions over precisely the
x-padded boxes of those words (removing the words those padded boxes
overlap), persists incrementally and returns `True`; on the sample
page holding "Cat" and "Category", deleting "Cat" removes only the
"Cat" token and leaves "Category" present. -/
theorem deleteText_spec :
    (∀ (doc : Doc) (pn : ℕ) (q : String) (page : Page),
      doc.pages[pn]? = some page →
      page.words.filter (fun w => strip w.text == strip q) = [] →
      delete_text doc pn q = (false, doc)) ∧
    (∀ (doc : Doc) (pn : ℕ) (q : String) (page : Page),
      doc.pages[pn]? = some page → page.pending = [] →
      page.words.filter (fun w => strip w.text == strip q) ≠ [] →
      ∃ page',
        delete_text doc pn q
          = (true, { pages := doc.pages.set pn page',
                     persistCount := doc.persistCount + 1 }) ∧
        page'.applied = page.applied
          ++ (page.words.filter (fun w => strip w.text == strip q)).map
              (fun w => padRect (wordRect w)) ∧
        page'.words = page.words.filter (fun w =>
          !(((page.words.filter (fun v => strip v.text == strip q)).map
              (fun v => padRect (wordRect v))).any
            (fun r => rectIntersects r (wordRect w))))) ∧
    ((delete_text catDoc 0 "Cat").1 = true ∧
      ((delete_text catDoc 0 "Cat").2.pages[0]?).map Page.words
        = some [categoryWord]) := by
  refine ⟨deleteText_miss, deleteText_hit, ?_⟩
  obtain ⟨page', he, _, hw⟩ :=
    deleteText_hit catDoc 0 "Cat" catPage rfl rfl (by decide)
  have hfil : catPage.words.filter (fun w => strip w.text == strip "Cat")
      = [catWord] := by decide
  have i1 : rectIntersects (padRect (wordRect catWord)) (wordRect catWord)
      = true := by
    simp only [rectIntersects, padRect, wordRect, catWord]
    norm_num
  have i2 : rectIntersects (padRect (wordRect catWord)) (wordRect categoryWord)
      = false := by
    simp only [rectIntersects, padRect, wordRect, catWord, categoryWord]
    norm_num
  have hwords : page'.words = [categoryWord] := by
    rw [hw, hfil]
    show (catPage.words.filter (fun w =>
      !([padRect (wordRect catWord)].any
        (fun r => rectIntersects r (wordRect w))))) = [categoryWord]
    show ([catWord, categoryWord].filter (fun w =>
      !([padRect (wordRect catWord)].any
        (fun r => rectIntersects r (wordRect w))))) = [categoryWord]
    simp [List.filter, List.any, i1, i2]
  refine ⟨by rw [he], ?_⟩
  rw [he]
  show ((catDoc.pages.set 0 page')[0]?).map Page.words = some [categoryWord]
  rw [show catDoc.pages.set 0 page' = [page'] from rfl]
  simp [hwords]

/-- Witness for C2: no "Dog" on the sample page (negative result), and
an exact "Cat" match (positive result). -/
theorem deleteText_spec_witness :
    delete_text catDoc 0 "Dog" = (false, catDoc) ∧
    (∃ page',
      delete_text catDoc 0 "Cat"
        = (true, { pages := catDoc.pages.set 0 page',
                   persistCount := catDoc.persistCount + 1 }) ∧
      page'.applied = catPage.applied
        ++ (catPage.words.filter (fun w => strip w.text == strip "Cat")).map
            (fun w => padRect (wordRect w)) ∧
      page'.words = catPage.words.filter (fun w =>
        !(((catPage.words.filter (fun v => strip v.text == strip "Cat")).map
            (fun v => padRect (wordRect v))).any
          (fun r => rectIntersects r (wordRect w))))) :=
  ⟨deleteText_spec.1 catDoc 0 "Dog" catPage rfl (by decide),
   deleteText_spec.2.1 catDoc 0 "Cat" catPage rfl rfl (by decide)⟩

/-- C9 — Removing a valid page index from a document shrinks the page
count by one, persists incrementally, and shifts every subsequent page
down one index: rendering index `j ≥ i` afterwards renders what was
page `j + 1`, while pages before `i` are untouched. -/
theorem removePage_spec (doc : Doc) (i : ℕ) (h : i < doc.pages.length) :
    (remove_page doc i).pages.length = doc.pages.length - 1 ∧
    (remove_page doc i).persistCount = doc.persistCount + 1 ∧
    (∀ j z, i ≤ j → render (remove_page doc i) j z = render doc (j + 1) z) ∧
    (∀ j z, j < i → render (remove_page doc i) j z = render doc j z) := by
  refine ⟨?_, ?_, ?_, ?_⟩
  · simp [remove_page, if_pos h, List.length_eraseIdx, h]
  · simp [remove_page, if_pos h]
  · intro j z hij
    simp only [render, remove_page, if_pos h]
    rw [List.getElem?_eraseIdx, if_neg (by omega)]
  · intro j z hij
    simp only [render, remove_page, if_pos h]
    rw [List.getElem?_eraseIdx, if_pos hij]

/-- Witness for C9: removing page 1 of the three-page sample leaves two
pages and renders the former page 2 at index 1. -/
theorem removePage_spec_witness :
    (remove_page threePageDoc 1).pages.length = 2 ∧
    render (remove_page threePageDoc 1) 1 1 = render threePageDoc 2 1 :=
  ⟨by simpa using (removePage_spec threePageDoc 1 (by decide)).1,
   (removePage_spec threePageDoc 1 (by decide)).2.2.1 1 1 (by decide)⟩

/-- C8 — Committing the click-to-edit box with text equal to the hit
word's (non-empty) text takes the no-op fast path: the box is hidden
and nothing else happens — in particular the document, including its
persistence counter, is exactly what it was. -/
theorem editAtPoint_unchanged_noop (s : ViewerState) (i : ℕ) (w : Word)
    (hv : s.editBox.visible = true)
    (hi : s.currentPageIndex = some i)
    (hw : s.editBox.originalWord = some w)
    (hne : w.text ≠ "")
    (ht : strip s.editBox.text = w.text) :
    finish_text_edit s = hideBox s ∧ (finish_text_edit s).doc = s.doc := by
  have hguard : ¬(s.editBox.visible = false ∨ s.currentPageIndex = none) := by
    simp [hv, hi]
  have h1 : finish_text_edit s = hideBox s := by
    unfold finish_text_edit
    rw [if_neg hguard, hw]
    simp only []
    rw [if_pos ⟨hne, ht⟩]
  exact ⟨h1, by rw [h1]; rfl⟩

/-- Witness for C8: committing "Hello" back over the word "Hello". -/
theorem editAtPoint_unchanged_noop_witness :
    finish_text_edit helloState = hideBox helloState ∧
    (finish_text_edit helloState).doc = helloState.doc :=
  editAtPoint_unchanged_noop helloState 0 helloWord rfl rfl rfl
    (by decide) (by decide)

/-- C3 counterexample — one session on the sample filesystem: open
"doc.pdf" (bytes 7) into the working copy "work.pdf", commit one edit,
then invoke the app-level Save command (`PDFViewerApp.save_file`),
which calls `save_as(original_path)`: the bytes at the original path
change from 7 to 8, so the original source file is mutated during the
session's lifetime. -/
theorem saveFile_mutates_original :
    fs0 "doc.pdf" = 7 ∧
    (save_file (saveIncrFS (openSession fs0 "doc.pdf" "work.pdf").1
        (openSession fs0 "doc.pdf" "work.pdf").2)
        (openSession fs0 "doc.pdf" "work.pdf").2).1 "doc.pdf" = 8 ∧
    (save_file (saveIncrFS (openSession fs0 "doc.pdf" "work.pdf").1
        (openSession fs0 "doc.pdf" "work.pdf").2)
        (openSession fs0 "doc.pdf" "work.pdf").2).1 "doc.pdf"
      ≠ fs0 "doc.pdf" := by decide

/-- C3 (amended) — Every committed edit writes only the working path,
and `saveAs(dest)` writes the working copy's current bytes to `dest`
and returns `True`; hence the original source's bytes survive any
session history whose saves all target paths other than the original.
The app-level Save command, however, targets exactly the original path
and overwrites it with the working copy's bytes. -/
theorem sessionSave_discipline :
    (∀ (fs : FS) (s : Session) (ops : List SessionOp),
      s.workingPath ≠ s.originalPath →
      (∀ d, SessionOp.saveAs d ∈ ops → d ≠ s.originalPath) →
      runOps fs s ops s.originalPath = fs s.originalPath) ∧
    (∀ (fs : FS) (s : Session) (dest : String),
      (save_as fs s dest).1 dest = fs s.workingPath ∧
      (save_as fs s dest).2 = true) ∧
    (∀ (fs : FS) (s : Session),
      (save_file fs s).1 s.originalPath = fs s.workingPath) := by
  refine ⟨?_, ?_, ?_⟩
  · intro fs s ops hw
    induction ops generalizing fs with
    | nil => intro _; rfl
    | cons op rest ih =>
      intro hd
      have hd' : ∀ d, SessionOp.saveAs d ∈ rest → d ≠ s.originalPath :=
        fun d hm => hd d (List.mem_cons_of_mem _ hm)
      cases op with
      | mutate =>
        show runOps (saveIncrFS fs s) s rest s.originalPath = fs s.originalPath
        rw [ih (saveIncrFS fs s) hd']
        have : s.originalPath ≠ s.workingPath := Ne.symm hw
        simp [saveIncrFS, setFile, this]
      | saveAs d =>
        show runOps ((save_as fs s d).1) s rest s.originalPath = fs s.originalPath
        rw [ih _ hd']
        have hdne : s.originalPath ≠ d :=
          Ne.symm (hd d (List.mem_cons_self _ _))
        simp [save_as, setFile, hdne]
  · intro fs s dest
    refine ⟨?_, rfl⟩
    simp [save_as, setFile]
  · intro fs s
    simp [save_file, save_as, setFile]

/-- Witness for C3's amended statement: an edit plus a Save As to a
third path leave the original's bytes intact, and both save operations
copy the working bytes. -/
theorem sessionSave_discipline_witness :
    runOps fs0 ⟨"doc.pdf", "work.pdf"⟩
        [SessionOp.mutate, SessionOp.saveAs "out.pdf"] "doc.pdf"
      = fs0 "doc.pdf" ∧
    (save_as fs0 ⟨"doc.pdf", "work.pdf"⟩ "out.pdf").1 "out.pdf"
      = fs0 "work.pdf" ∧
    (save_file fs0 ⟨"doc.pdf", "work.pdf"⟩).1 "doc.pdf" = fs0 "work.pdf" :=
  ⟨sessionSave_discipline.1 fs0 ⟨"doc.pdf", "work.pdf"⟩
      [SessionOp.mutate, SessionOp.saveAs "out.pdf"] (by decide)
      (by
        intro d hm
        simp at hm
        subst hm
        decide),
   (sessionSave_discipline.2.1 fs0 ⟨"doc.pdf", "work.pdf"⟩ "out.pdf").1,
   sessionSave_discipline.2.2 fs0 ⟨"doc.pdf", "work.pdf"⟩⟩

end PdfModel
